import Mathlib

/-!
Verification development for the media retrieval client of the repository
(source file: the module exporting parseMXCUrl, getMediaEndpointPrefix,
getSharedAgent, releaseDownloadAgent and downloadContent_v2).

The embedding is shallow: JavaScript strings are Lean strings, the JS
split / join / slice operations are modelled on the underlying character
lists, byte buffers are lists of naturals, the undici pool singleton is an
explicit state record, and the network is an oracle mapping an attempt
index to the outcome of that attempt.  Thrown JS Error values are modelled
by their message strings, since the source code itself distinguishes
errors only by substring tests on the message.
-/

deriving instance DecidableEq for Except

namespace OpenclawMedia

/-! ## Identifier parser (parseMXCUrl) -/

/-- Result type of the parser, as defined in the source (interface
MXCComponents). -/
structure MXCComponents where
  domain : String
  mediaId : String
deriving DecidableEq, Repr

/-- The characters of the scheme marker "mxc://". -/
def mxcPrefixChars : List Char := ['m', 'x', 'c', ':', '/', '/']

/-- Model of the JavaScript single-character String.split: splits on every
occurrence of the separator, never returns an empty list. -/
def splitOnChar (sep : Char) : List Char → List (List Char)
  | [] => [[]]
  | c :: rest =>
    if c == sep then [] :: splitOnChar sep rest
    else
      match splitOnChar sep rest with
      | [] => [[c]]
      | h :: r => (c :: h) :: r

/-- Model of Array.prototype.join with a single-character separator. -/
def joinChar (sep : Char) : List (List Char) → List Char
  | [] => []
  | [x] => x
  | x :: y :: rest => x ++ sep :: joinChar sep (y :: rest)

/-- Embedding of parseMXCUrl.  The absent / null argument case of the JS
signature is modelled by Option; thrown errors are returned as their
message strings.  toLowerCase is modelled by mapping Char.toLower, and
slice(6) by dropping six characters. -/
def parseMXCUrl (mxcUrl : Option String) : Except String MXCComponents :=
  match mxcUrl with
  | none => .error "Not a valid MXC URI"
  | some u =>
    if mxcPrefixChars.isPrefixOf (u.data.map Char.toLower) then
      match splitOnChar '/' (u.data.drop 6) with
      | [] => .error "Missing domain component in MXC URI"
      | domain :: mediaIdParts =>
        if domain = [] then .error "Missing domain component in MXC URI"
        else
          let mediaId := joinChar '/' mediaIdParts
          if mediaId = [] then .error "Missing mediaId component in MXC URI"
          else .ok { domain := String.mk domain, mediaId := String.mk mediaId }
    else .error "Not a valid MXC URI"

/-! ## Reference definition of the parser, from the specification's words -/

/-- Parsed identifier as the specification names it. -/
structure ContentIdentifier where
  authority : String
  resourceId : String
deriving DecidableEq, Repr

/-- Error taxonomy of the specification for the identifier parser. -/
inductive ParseError where
  | invalidIdentifier
  | missingAuthority
  | missingResourceId
deriving DecidableEq, Repr

/-- The message the source code uses for each specification error class. -/
def errMessage : ParseError → String
  | .invalidIdentifier => "Not a valid MXC URI"
  | .missingAuthority => "Missing domain component in MXC URI"
  | .missingResourceId => "Missing mediaId component in MXC URI"

/-- Reference parser, written from the claim's words: the input must begin
with the case-insensitive prefix, the remainder is split on the FIRST
separator into an authority and a verbatim rest (further separators
preserved), both of which must be non-empty. -/
def parseReference (input : Option String) : Except ParseError ContentIdentifier :=
  match input with
  | none => .error .invalidIdentifier
  | some s =>
    if (s.data.take 6).map Char.toLower = mxcPrefixChars then
      let remainder := s.data.drop 6
      let authority := remainder.takeWhile (fun c => !(c == '/'))
      let rest := (remainder.dropWhile (fun c => !(c == '/'))).drop 1
      if authority = [] then .error .missingAuthority
      else if rest = [] then .error .missingResourceId
      else .ok { authority := String.mk authority, resourceId := String.mk rest }
    else .error .invalidIdentifier

/-! ## Split / join lemmas -/

theorem splitOnChar_ne_nil (sep : Char) (l : List Char) : splitOnChar sep l ≠ [] := by
  cases l with
  | nil => simp [splitOnChar]
  | cons c rest =>
    by_cases h : c == sep
    · simp [splitOnChar, h]
    · cases hs : splitOnChar sep rest <;> simp [splitOnChar, h, hs]

theorem joinChar_splitOnChar (sep : Char) (l : List Char) :
    joinChar sep (splitOnChar sep l) = l := by
  induction l with
  | nil => rfl
  | cons c rest ih =>
    obtain ⟨h', r', hs⟩ : ∃ h' r', splitOnChar sep rest = h' :: r' := by
      cases hsp : splitOnChar sep rest with
      | nil => exact absurd hsp (splitOnChar_ne_nil sep rest)
      | cons a b => exact ⟨a, b, rfl⟩
    rw [hs] at ih
    by_cases h : c = sep
    · subst h
      rw [show splitOnChar c (c :: rest) = [] :: h' :: r' by simp [splitOnChar, hs]]
      simp only [joinChar, List.nil_append]
      rw [ih]
    · have hb : (c == sep) = false := by simp [h]
      rw [show splitOnChar sep (c :: rest) = (c :: h') :: r' by simp [splitOnChar, hb, hs]]
      cases r' with
      | nil => simpa [joinChar] using ih
      | cons y r'' =>
        simp only [joinChar, List.cons_append] at ih ⊢
        rw [ih]

theorem splitOnChar_head_tail (sep : Char) (l : List Char) :
    ∃ t, splitOnChar sep l = (l.takeWhile (fun c => !(c == sep))) :: t ∧
      joinChar sep t = (l.dropWhile (fun c => !(c == sep))).drop 1 := by
  induction l with
  | nil => exact ⟨[], rfl, rfl⟩
  | cons c rest ih =>
    by_cases h : c = sep
    · refine ⟨splitOnChar sep rest, ?_, ?_⟩
      · simp [splitOnChar, h, List.takeWhile_cons]
      · simp [List.dropWhile_cons, h, joinChar_splitOnChar]
    · have hb : (c == sep) = false := by simp [h]
      obtain ⟨t, h1, h2⟩ := ih
      refine ⟨t, ?_, ?_⟩
      · simp [splitOnChar, hb, h1, List.takeWhile_cons]
      · simpa [List.dropWhile_cons, hb] using h2

/-- Equivalence of the two ways of testing the case-insensitive prefix:
the source lowers the whole string and uses startsWith, the reference
definition compares the lowered first six characters. -/
theorem prefix_check_eq (l : List Char) :
    mxcPrefixChars.isPrefixOf (l.map Char.toLower) = true ↔
      (l.take 6).map Char.toLower = mxcPrefixChars := by
  rw [List.isPrefixOf_iff_prefix, List.prefix_iff_eq_take]
  have hlen : mxcPrefixChars.length = 6 := rfl
  rw [hlen, ← List.map_take]
  exact eq_comm

/-- C1: the identifier parser refines the reference definition: success
cases agree (authority and verbatim resource id), and each failure class
maps to the corresponding source error message. -/
theorem parseMXCUrl_refines_reference (input : Option String) :
    parseMXCUrl input =
      Except.map (fun ci => MXCComponents.mk ci.authority ci.resourceId)
        (Except.mapError errMessage (parseReference input)) := by
  cases input with
  | none => rfl
  | some u =>
    simp only [parseMXCUrl, parseReference]
    by_cases hp : (u.data.take 6).map Char.toLower = mxcPrefixChars
    · have hpre : mxcPrefixChars.isPrefixOf (u.data.map Char.toLower) = true :=
        (prefix_check_eq u.data).mpr hp
      rw [if_pos hpre, if_pos hp]
      obtain ⟨t, hsplit, hjoin⟩ := splitOnChar_head_tail '/' (u.data.drop 6)
      rw [hsplit]
      by_cases ha : (u.data.drop 6).takeWhile (fun c => !(c == '/')) = []
      · simp [ha, Except.map, Except.mapError, errMessage]
      · by_cases hr : ((u.data.drop 6).dropWhile (fun c => !(c == '/'))).tail = []
        · simp [ha, hr, hjoin, Except.map, Except.mapError, errMessage]
        · simp [ha, hr, hjoin, Except.map, Except.mapError]
    · have hpre : ¬ mxcPrefixChars.isPrefixOf (u.data.map Char.toLower) = true := by
        intro hc; exact hp ((prefix_check_eq u.data).mp hc)
      rw [if_neg hpre, if_neg hp]
      rfl

/-! ## Endpoint version resolver (getMediaEndpointPrefix) -/

/-- Outcome of the capabilities probe issued against the well-known
versions endpoint.  networkError models a rejected fetch; response models
a completed HTTP exchange with its ok flag and, when the JSON body could
be parsed to an object with a versions list of strings, that list
(body = none models a malformed body or a json parse failure, both of
which the source turns into an empty effective list or a caught
exception, either way selecting the legacy prefix). -/
inductive ProbeOutcome where
  | networkError
  | response (ok : Bool) (body : Option (List String))
deriving DecidableEq, Repr

/-- Embedding of the version test regex: the string must be the three
characters v 1 . followed by either the digit 1 and a digit from 1 to 9,
or a digit from 2 to 9 and a digit from 0 to 9.  Character codes 48-57
are the ASCII digits 0-9, so 49 is the code of 1, 50 of 2, 57 of 9. -/
def matchesModernVersion (s : String) : Bool :=
  match s.data with
  | [a, b, c, d, e] =>
      a = 'v' && b = '1' && c = '.' &&
      ((d = '1' && 49 ≤ e.toNat && e.toNat ≤ 57) ||
       (50 ≤ d.toNat && d.toNat ≤ 57 && 48 ≤ e.toNat && e.toNat ≤ 57))
  | _ => false

/-- Embedding of getMediaEndpointPrefix: on a completed exchange with the
ok flag set and some advertised version matching the regex, the modern
path prefix; in every other case, the legacy one. -/
def getMediaEndpointPrefix (probe : ProbeOutcome) : String :=
  match probe with
  | .networkError => "/_matrix/media/v3"
  | .response ok body =>
    if ok && (body.getD []).any matchesModernVersion then "/_matrix/client/v1/media"
    else "/_matrix/media/v3"

/-- The regex accepts exactly the strings v1.n for a minor version n
written with two digits, that is 11 <= n <= 99. -/
theorem matchesModernVersion_iff (s : String) :
    matchesModernVersion s = true ↔ ∃ n, 11 ≤ n ∧ n ≤ 99 ∧ s = "v1." ++ Nat.repr n := by
  constructor
  · intro h
    obtain ⟨l⟩ := s
    rcases l with _ | ⟨a, l⟩
    · simp [matchesModernVersion] at h
    rcases l with _ | ⟨b, l⟩
    · simp [matchesModernVersion] at h
    rcases l with _ | ⟨c, l⟩
    · simp [matchesModernVersion] at h
    rcases l with _ | ⟨d, l⟩
    · simp [matchesModernVersion] at h
    rcases l with _ | ⟨e, l⟩
    · simp [matchesModernVersion] at h
    rcases l with _ | ⟨f, l⟩
    swap
    · simp [matchesModernVersion] at h
    simp only [matchesModernVersion, Bool.and_eq_true, Bool.or_eq_true,
      decide_eq_true_eq] at h
    obtain ⟨⟨⟨rfl, rfl⟩, rfl⟩, hd⟩ := h
    rcases hd with ⟨⟨rfl, he1⟩, he2⟩ | ⟨⟨⟨hd1, hd2⟩, he1⟩, he2⟩
    · obtain ⟨k, hk1, hk2, rfl⟩ : ∃ k, 49 ≤ k ∧ k ≤ 57 ∧ e = Char.ofNat k :=
        ⟨e.toNat, he1, he2, (Char.ofNat_toNat e).symm⟩
      refine ⟨10 + (k - 48), by omega, by omega, ?_⟩
      interval_cases k <;> decide
    · obtain ⟨k1, hk1, hk2, rfl⟩ : ∃ k, 50 ≤ k ∧ k ≤ 57 ∧ d = Char.ofNat k :=
        ⟨d.toNat, hd1, hd2, (Char.ofNat_toNat d).symm⟩
      obtain ⟨k2, hl1, hl2, rfl⟩ : ∃ k, 48 ≤ k ∧ k ≤ 57 ∧ e = Char.ofNat k :=
        ⟨e.toNat, he1, he2, (Char.ofNat_toNat e).symm⟩
      refine ⟨10 * (k1 - 48) + (k2 - 48), by omega, by omega, ?_⟩
      interval_cases k1 <;> interval_cases k2 <;> decide
  · rintro ⟨n, h1, h2, rfl⟩
    interval_cases n <;> decide

/-- C2 counterexample: the advertised version v1.100 has major version 1
and minor version 100 >= 11, yet the resolver selects the legacy prefix,
because the source regex only accepts two-digit minors. -/
theorem getMediaEndpointPrefix_rejects_v1_100 :
    getMediaEndpointPrefix (ProbeOutcome.response true (some ["v1.100"])) =
        "/_matrix/media/v3" ∧
      (∃ n, 11 ≤ n ∧ "v1.100" = "v1." ++ Nat.repr n) ∧
      "/_matrix/media/v3" ≠ "/_matrix/client/v1/media" :=
  ⟨rfl, ⟨100, by decide, by decide⟩, by decide⟩

/-- C2 amended: the resolver is total on probe outcomes, always returns
one of the two prefixes, and returns the modern prefix exactly when the
probe completed with the ok flag set and some advertised entry is v1.n
for a TWO-DIGIT minor 11 <= n <= 99 (v1.100 and later, and zero-padded
minors, select the legacy prefix); in every other case, including network
errors, non-success statuses and malformed bodies, it returns the legacy
prefix. -/
theorem getMediaEndpointPrefix_modern_iff (probe : ProbeOutcome) :
    ( getMediaEndpointPrefix probe = "/_matrix/client/v1/media" ∨
      getMediaEndpointPrefix probe = "/_matrix/media/v3") ∧
    ( getMediaEndpointPrefix probe = "/_matrix/client/v1/media" ↔
      ∃ body, probe = ProbeOutcome.response true body ∧
        ∃ v ∈ body.getD [], ∃ n, 11 ≤ n ∧ n ≤ 99 ∧ v = "v1." ++ Nat.repr n) := by
  cases probe with
  | networkError =>
    refine ⟨Or.inr rfl, ?_⟩
    constructor
    · intro hcontra
      exact absurd hcontra (by decide)
    · rintro ⟨body', hb, _⟩
      cases hb
  | response ok body =>
    cases ok with
    | false =>
      have hleg : getMediaEndpointPrefix (ProbeOutcome.response false body) =
          "/_matrix/media/v3" := by
        simp [getMediaEndpointPrefix]
      refine ⟨Or.inr hleg, ?_⟩
      constructor
      · intro hcontra
        rw [hleg] at hcontra
        exact absurd hcontra (by decide)
      · rintro ⟨body', hb, _⟩
        simp at hb
    | true =>
      by_cases hm : (body.getD []).any matchesModernVersion = true
      · refine ⟨Or.inl (by simp [getMediaEndpointPrefix, hm]), ?_⟩
        constructor
        · intro _
          rw [List.any_eq_true] at hm
          obtain ⟨v, hv, hmv⟩ := hm
          exact ⟨body, rfl, v, hv, (matchesModernVersion_iff v).mp hmv⟩
        · intro _
          simp [getMediaEndpointPrefix, hm]
      · have hleg : getMediaEndpointPrefix (ProbeOutcome.response true body) =
            "/_matrix/media/v3" := by
          simp only [getMediaEndpointPrefix, Bool.true_and]
          rw [if_neg hm]
        refine ⟨Or.inr hleg, ?_⟩
        constructor
        · intro hcontra
          rw [hleg] at hcontra
          exact absurd hcontra (by decide)
        · rintro ⟨body', hb, v, hv, hn⟩
          obtain rfl : body' = body := by injection hb with h1 h2; exact h2.symm
          exact absurd (List.any_eq_true.mpr
            ⟨v, hv, (matchesModernVersion_iff v).mpr hn⟩) hm

/-! ## Pooled connection manager (getSharedAgent / releaseDownloadAgent) -/

/-- The process-wide singleton state: the module-level variables
sharedAgent (a pool instance, modelled by the origin string it was
created for, or absent) and agentRefCount.  The counter is an Int because
the source decrements a JS number without a lower bound. -/
structure AgentState where
  sharedAgent : Option String
  agentRefCount : Int
deriving DecidableEq, Repr

/-- The state at module load: no pool, zero references. -/
def initialAgentState : AgentState := { sharedAgent := none, agentRefCount := 0 }

/-- Model of new URL(u).origin for an ordinary scheme://host[:port]/...
URL: scheme, the :// marker, then everything up to the next slash.
(The WHATWG normalizations are not modelled; no claim depends on them.) -/
def urlOrigin (u : String) : String :=
  let scheme := u.data.takeWhile (fun c => !(c == ':'))
  let rest := (u.data.dropWhile (fun c => !(c == ':'))).drop 3
  String.mk (scheme ++ ':' :: '/' :: '/' :: rest.takeWhile (fun c => !(c == '/')))

/-- Embedding of getSharedAgent: returns the existing pool instance and
bumps the count, or creates a pool bound to the origin and sets the count
to one.  The pool's connection options (64 connections, keep-alive 30s /
60s, allowH2) are construction constants with no further behaviour in
this model. -/
def getSharedAgent (homeserverUrl : String) (s : AgentState) : String × AgentState :=
  match s.sharedAgent with
  | some pool => (pool, { s with agentRefCount := s.agentRefCount + 1 })
  | none =>
    (urlOrigin homeserverUrl,
     { sharedAgent := some (urlOrigin homeserverUrl), agentRefCount := 1 })

/-- Embedding of releaseDownloadAgent: decrement the count; if the
decremented count is at most zero AND a pool exists, close it, clear the
singleton and reset the count to zero. -/
def releaseDownloadAgent (s : AgentState) : AgentState :=
  let rc := s.agentRefCount - 1
  if rc ≤ 0 ∧ s.sharedAgent.isSome = true then
    { sharedAgent := none, agentRefCount := 0 }
  else { s with agentRefCount := rc }

/-- C3 counterexample: releasing when the refcount is already zero (and
hence no pool exists) stores -1: the counter is NOT clamped at zero and
does go negative, because the clamping branch of the source also requires
a live pool. -/
theorem releaseDownloadAgent_underflows_at_zero :
    releaseDownloadAgent initialAgentState =
        { sharedAgent := none, agentRefCount := -1 } ∧
      (releaseDownloadAgent initialAgentState).agentRefCount < 0 := by
  constructor <;> decide

/-- C3 amended: release always performs the decrement; when no pool
exists the stored count simply drops by one (so a release at zero stores
-1, not clamped), while whenever a pool exists a release never leaves a
negative count (the close branch resets it to zero); the negative count
is unobservable because the next acquisition resets the count to one. -/
theorem releaseDownloadAgent_amended
    (s : AgentState) :
    (s.sharedAgent = none →
      releaseDownloadAgent s = { sharedAgent := none, agentRefCount := s.agentRefCount - 1 }) ∧
    (s.sharedAgent ≠ none → 0 ≤ (releaseDownloadAgent s).agentRefCount) ∧
    (∀ u, s.sharedAgent = none →
      ((getSharedAgent u (releaseDownloadAgent s)).2 =
        { sharedAgent := some (urlOrigin u), agentRefCount := 1 })) := by
  refine ⟨?_, ?_, ?_⟩
  · intro hnone
    simp [releaseDownloadAgent, hnone]
  · intro hsome
    obtain ⟨p, hp⟩ := Option.ne_none_iff_exists'.mp hsome
    by_cases hrc : s.agentRefCount - 1 ≤ 0
    · simp [releaseDownloadAgent, hp, hrc]
    · simp only [releaseDownloadAgent, hp]
      rw [if_neg (by simp [hrc])]
      dsimp only
      omega
  · intro u hnone
    simp [releaseDownloadAgent, getSharedAgent, hnone]

/-- C3 amended, witness: concrete instances of all three conjuncts. -/
theorem releaseDownloadAgent_amended_witness :
    (releaseDownloadAgent { sharedAgent := none, agentRefCount := 0 } =
        { sharedAgent := none, agentRefCount := 0 - 1 }) ∧
    (0 ≤ (releaseDownloadAgent { sharedAgent := some "https://hs.example", agentRefCount := 5 }).agentRefCount) ∧
    ((getSharedAgent "https://hs.example"
        (releaseDownloadAgent { sharedAgent := none, agentRefCount := 0 })).2 =
      { sharedAgent := some (urlOrigin "https://hs.example"), agentRefCount := 1 }) :=
  ⟨(releaseDownloadAgent_amended { sharedAgent := none, agentRefCount := 0 }).1 rfl,
   (releaseDownloadAgent_amended { sharedAgent := some "https://hs.example", agentRefCount := 5 }).2.1
     (by decide),
   (releaseDownloadAgent_amended { sharedAgent := none, agentRefCount := 0 }).2.2
     "https://hs.example" rfl⟩

/-- One acquisition step, keeping only the updated singleton state. -/
def acquireStep (u : String) (s : AgentState) : AgentState := (getSharedAgent u s).2

theorem acquireStep_iterate (u : String) :
    ∀ n, 1 ≤ n → (acquireStep u)^[n] initialAgentState =
      { sharedAgent := some (urlOrigin u), agentRefCount := (n : Int) } := by
  intro n hn
  induction n with
  | zero => omega
  | succ m ih =>
    rcases Nat.eq_or_lt_of_le hn with h1 | h1
    · simp only [← h1]
      simp [acquireStep, getSharedAgent, initialAgentState]
    · have hm : 1 ≤ m := by omega
      rw [Function.iterate_succ_apply', ih hm]
      simp [acquireStep, getSharedAgent]

theorem releaseDownloadAgent_iterate (p : String) :
    ∀ n : Nat, 1 ≤ n →
      releaseDownloadAgent^[n] { sharedAgent := some p, agentRefCount := (n : Int) } =
        initialAgentState := by
  intro n hn
  induction n with
  | zero => omega
  | succ m ih =>
    rcases Nat.eq_or_lt_of_le hn with h1 | h1
    · simp only [← h1]
      simp [releaseDownloadAgent, initialAgentState]
    · have hm : 1 ≤ m := by omega
      rw [Function.iterate_succ_apply]
      have hstep : releaseDownloadAgent { sharedAgent := some p, agentRefCount := ((m + 1 : Nat) : Int) } =
          { sharedAgent := some p, agentRefCount := (m : Int) } := by
        simp only [releaseDownloadAgent]
        rw [if_neg (by push_neg; intro hc; exfalso; omega)]
        congr 1
        push_cast
        ring
      rw [hstep, ih hm]

/-- C8: starting from the absent-pool state, the first acquisition
creates the pool for the URL's origin with refcount one, every later
acquisition while a pool exists returns that same instance and bumps the
count, and N acquisitions followed by N releases restore exactly the
absent-pool state with refcount zero. -/
theorem pool_acquire_release_roundtrip (u : String) (n : Nat) :
    releaseDownloadAgent^[n] ((acquireStep u)^[n] initialAgentState) = initialAgentState ∧
    getSharedAgent u initialAgentState =
      (urlOrigin u, { sharedAgent := some (urlOrigin u), agentRefCount := 1 }) ∧
    (∀ s p, s.sharedAgent = some p →
      getSharedAgent u s = (p, { s with agentRefCount := s.agentRefCount + 1 })) := by
  refine ⟨?_, by simp [getSharedAgent, initialAgentState], ?_⟩
  · cases n with
    | zero => rfl
    | succ m =>
      rw [acquireStep_iterate u (m + 1) (by omega)]
      exact releaseDownloadAgent_iterate (urlOrigin u) (m + 1) (by omega)
  · intro s p hp
    simp [getSharedAgent, hp]

/-- C8 witness: two acquisitions followed by two releases from the
initial state land back on the initial state, and an acquisition on a
live pool returns the same instance. -/
theorem pool_acquire_release_roundtrip_witness :
    releaseDownloadAgent^[2] ((acquireStep "https://hs.example")^[2] initialAgentState) =
        initialAgentState ∧
    getSharedAgent "https://hs.example"
        { sharedAgent := some "poolinstance", agentRefCount := 3 } =
      ("poolinstance", { sharedAgent := some "poolinstance", agentRefCount := 3 + 1 }) :=
  ⟨(pool_acquire_release_roundtrip "https://hs.example" 2).1,
   (pool_acquire_release_roundtrip "https://hs.example" 2).2.2
     { sharedAgent := some "poolinstance", agentRefCount := 3 } "poolinstance" rfl⟩

/-! ## Retrying fetcher (downloadContent_v2) -/

/-- Download result as in the source: the drained body bytes and the
declared content type. -/
structure DownloadResult where
  data : List Nat
  contentType : String
deriving DecidableEq, Repr

/-- Hexadecimal digit character, upper case, as produced by
encodeURIComponent. -/
def hexDigitChar (n : Nat) : Char :=
  if n < 10 then Char.ofNat (48 + n) else Char.ofNat (55 + n)

/-- UTF-8 bytes of a code point. -/
def utf8Bytes (c : Char) : List Nat :=
  let n := c.toNat
  if n < 128 then [n]
  else if n < 2048 then [192 ||| (n >>> 6), 128 ||| (n &&& 63)]
  else if n < 65536 then
    [224 ||| (n >>> 12), 128 ||| ((n >>> 6) &&& 63), 128 ||| (n &&& 63)]
  else
    [240 ||| (n >>> 18), 128 ||| ((n >>> 12) &&& 63),
     128 ||| ((n >>> 6) &&& 63), 128 ||| (n &&& 63)]

/-- The characters encodeURIComponent leaves unescaped: ASCII letters and
digits and - _ . ! ~ * ' ( ). -/
def isUnescapedChar (c : Char) : Bool :=
  c.isAlpha || c.isDigit || c = '-' || c = '_' || c = '.' || c = '!' ||
    c = '~' || c = '*' || c = Char.ofNat 39 || c = '(' || c = ')'

/-- Model of the JS global encodeURIComponent: unescaped characters pass
through, every other character becomes the percent-encoding of its UTF-8
bytes. -/
def encodeURIComponent (s : String) : String :=
  String.mk (s.data.flatMap (fun c =>
    if isUnescapedChar c then [c]
    else (utf8Bytes c).flatMap (fun b => ['%', hexDigitChar (b / 16), hexDigitChar (b % 16)])))

/-- Observable actions of one download call: the capabilities probe, the
pool acquisition, a backoff sleep of a given number of milliseconds, and
an HTTP GET for a given path issued over the pool. -/
inductive Event where
  | probe
  | acquire
  | sleep (ms : Nat)
  | request (path : String)
deriving DecidableEq, Repr

/-- Number of HTTP download attempts recorded in a trace. -/
def countRequests (events : List Event) : Nat :=
  (events.filter (fun e => match e with | .request _ => true | _ => false)).length

/-- Outcome of one attempt, decided by the network: either a completed
HTTP response (status, optional content-type header, the body as text for
the error path and as byte chunks for the success path) or a transport
error carrying its message. -/
inductive AttemptOutcome where
  | response (status : Nat) (contentType : Option String) (bodyText : String)
      (chunks : List (List Nat))
  | transportError (msg : String)
deriving DecidableEq, Repr

/-- The body of the try block of one attempt: a non-2xx status becomes an
error with message HTTP status colon body (or Unknown error when the body
text is empty - the source uses a falsy test); a 2xx response drains the
chunks into one buffer and takes the content-type header, defaulting to
application/octet-stream when the header is absent or empty (again a
falsy test). -/
def processOutcome (o : AttemptOutcome) : Except String DownloadResult :=
  match o with
  | .transportError msg => .error msg
  | .response status contentType bodyText chunks =>
    if status < 200 ∨ 300 ≤ status then
      .error ("HTTP " ++ toString status ++ ": " ++
        (if bodyText = "" then "Unknown error" else bodyText))
    else
      .ok { data := chunks.flatten,
            contentType :=
              match contentType with
              | some ct => if ct = "" then "application/octet-stream" else ct
              | none => "application/octet-stream" }

/-- Worker for the substring test: does pat occur as a prefix of some
suffix of the second list. -/
def occursIn (pat : List Char) : List Char → Bool
  | [] => pat.isEmpty
  | c :: rest => pat.isPrefixOf (c :: rest) || occursIn pat rest

/-- Model of JS String.prototype.includes: does pat occur as a contiguous
substring of s. -/
def strIncludes (s pat : String) : Bool :=
  occursIn pat.data s.data

/-- The backoff delay before attempt number a (a > 0): doubling from
1000 ms, capped at 8000 ms. -/
def backoffDelay (a : Nat) : Nat := min (1000 * 2 ^ (a - 1)) 8000

/-- The retry loop of downloadContent_v2, with the remaining number of
iterations made explicit as structural fuel.  When called with
fuel = maxRetries.toNat and attempt = 0, fuel counts the iterations the
JS for loop (attempt from 0 while attempt < maxRetries) still has to run,
so fuel = 0 inside an iteration is exactly the source's
attempt === maxRetries - 1 test, and running out of fuel before any
iteration is the loop exiting to the final throw of lastError (or the
generic error when lastError is still null). -/
def attemptLoopF (oracle : Nat → AttemptOutcome) (maxRetries : Int) (path : String) :
    Nat → Nat → Option String → List Event × Except String DownloadResult
  | 0, _, lastError =>
    ([], .error (lastError.getD "Download failed for unknown reason"))
  | fuel + 1, attempt, _ =>
    let pre : List Event := if 0 < attempt then [Event.sleep (backoffDelay attempt)] else []
    match processOutcome (oracle attempt) with
    | .ok res => (pre ++ [Event.request path], .ok res)
    | .error msg =>
      if strIncludes msg "Not a valid MXC URI" then
        (pre ++ [Event.request path], .error msg)
      else if fuel = 0 then
        (pre ++ [Event.request path],
         .error ("Failed to download after " ++ toString maxRetries ++ " attempts: " ++ msg))
      else
        let rest := attemptLoopF oracle maxRetries path fuel (attempt + 1) (some msg)
        (pre ++ Event.request path :: rest.1, rest.2)

/-- The retry loop as the source runs it: fuel is the number of
iterations of the for loop, which is maxRetries when positive and zero
otherwise. -/
def attemptLoop (oracle : Nat → AttemptOutcome) (maxRetries : Int) (path : String) :
    List Event × Except String DownloadResult :=
  attemptLoopF oracle maxRetries path maxRetries.toNat 0 none

/-- The parameters of downloadContent_v2.  mxcUrl is optional to model a
null or undefined argument; timeoutMs is carried even though the source
never reads it past the signature. -/
structure DownloadArgs where
  mxcUrl : Option String
  homeserverUrl : String
  accessToken : String
  allowRemote : Bool
  timeoutMs : Nat
  maxRetries : Int
deriving DecidableEq, Repr

/-- Embedding of downloadContent_v2.  The network is split into the probe
outcome consumed by the version resolver and an oracle giving the outcome
of each numbered download attempt; the returned trace records the probe,
the pool acquisition and the loop's sleeps and requests in order. -/
def downloadContent_v2 (args : DownloadArgs) (probe : ProbeOutcome)
    (oracle : Nat → AttemptOutcome) : List Event × Except String DownloadResult :=
  match parseMXCUrl args.mxcUrl with
  | .error e => ([], .error e)
  | .ok comps =>
    let endpoint := getMediaEndpointPrefix probe
    let downloadPath := endpoint ++ "/download/" ++ encodeURIComponent comps.domain ++
      "/" ++ encodeURIComponent comps.mediaId
    let search := if args.allowRemote then "" else "?allow_remote=false"
    let run := attemptLoop oracle args.maxRetries (downloadPath ++ search)
    (Event.probe :: Event.acquire :: run.1, run.2)

/-! ## Theorems about the retrying fetcher -/

/-- C7: when identifier parsing fails, the download propagates the parse
error at once: the trace is empty (no probe, no pool acquisition, no
sleep, no HTTP attempt) and the surfaced error is the parse error itself,
not a retry wrapper. -/
theorem download_parse_error_immediate (args : DownloadArgs) (probe : ProbeOutcome)
    (oracle : Nat → AttemptOutcome) (e : String)
    (hparse : parseMXCUrl args.mxcUrl = .error e) :
    downloadContent_v2 args probe oracle = ([], .error e) := by
  simp [downloadContent_v2, hparse]

/-- C7 witness: a non-MXC URL fails immediately with an empty trace. -/
theorem download_parse_error_immediate_witness :
    downloadContent_v2
        { mxcUrl := some "https://x/y.png", homeserverUrl := "https://h.x",
          accessToken := "tok", allowRemote := true, timeoutMs := 30000, maxRetries := 3 }
        ProbeOutcome.networkError (fun _ => AttemptOutcome.transportError "boom") =
      ([], .error "Not a valid MXC URI") :=
  download_parse_error_immediate _ _ _ _ (by decide)

/-- C9: the caller-supplied timeout budget has no effect on behaviour:
two downloads differing only in timeoutMs perform the same requests and
return the same result, because the source never reads the parameter
after binding it. -/
theorem download_timeout_has_no_effect (args : DownloadArgs) (t1 t2 : Nat)
    (probe : ProbeOutcome) (oracle : Nat → AttemptOutcome) :
    downloadContent_v2 { args with timeoutMs := t1 } probe oracle =
      downloadContent_v2 { args with timeoutMs := t2 } probe oracle := rfl

/-- C10: with a syntactically valid identifier but maxRetries at most
zero, the attempt loop never runs: no HTTP download attempt is issued and
the call fails with the generic message, not with a retry wrapper or a
classified error. -/
theorem download_nonpositive_retries (args : DownloadArgs) (probe : ProbeOutcome)
    (oracle : Nat → AttemptOutcome) (comps : MXCComponents)
    (hmr : args.maxRetries ≤ 0)
    (hparse : parseMXCUrl args.mxcUrl = .ok comps) :
    (downloadContent_v2 args probe oracle).2 =
        .error "Download failed for unknown reason" ∧
      countRequests (downloadContent_v2 args probe oracle).1 = 0 := by
  have hfuel : args.maxRetries.toNat = 0 := Int.toNat_of_nonpos hmr
  constructor
  · simp [downloadContent_v2, hparse, attemptLoop, hfuel, attemptLoopF]
  · simp [downloadContent_v2, hparse, attemptLoop, hfuel, attemptLoopF, countRequests]

/-- C10 witness: maxRetries zero issues no attempt and surfaces the
generic message. -/
theorem download_nonpositive_retries_witness :
    ((downloadContent_v2
        { mxcUrl := some "mxc://a/b", homeserverUrl := "https://h.x",
          accessToken := "tok", allowRemote := true, timeoutMs := 30000, maxRetries := 0 }
        ProbeOutcome.networkError (fun _ => AttemptOutcome.transportError "boom")).2 =
      .error "Download failed for unknown reason") ∧
    countRequests ((downloadContent_v2
        { mxcUrl := some "mxc://a/b", homeserverUrl := "https://h.x",
          accessToken := "tok", allowRemote := true, timeoutMs := 30000, maxRetries := 0 }
        ProbeOutcome.networkError (fun _ => AttemptOutcome.transportError "boom")).1) = 0 :=
  download_nonpositive_retries _ _ _ ⟨"a", "b"⟩ (by decide) (by decide)

/-- C4 counterexample: the server sends a 2xx response WITH a
Content-Type header whose value is the empty string; the result's
contentType is the octet-stream default, not the header value, because
the source uses a falsy test rather than a presence test. -/
theorem download_empty_content_type_not_preserved :
    (downloadContent_v2
        { mxcUrl := some "mxc://a/b", homeserverUrl := "https://h.x",
          accessToken := "tok", allowRemote := true, timeoutMs := 30000, maxRetries := 3 }
        ProbeOutcome.networkError
        (fun _ => AttemptOutcome.response 200 (some "") "" [[1, 2], [3]])).2 =
      .ok { data := [1, 2, 3], contentType := "application/octet-stream" } ∧
    "application/octet-stream" ≠ "" := by
  constructor <;> decide

/-- C4 amended: whenever the loop issues an attempt (fuel not yet
exhausted) and the network answers it with a 2xx response, the call
returns a result whose payload is exactly the concatenation of the body
chunks (length equal to the total byte count) and whose contentType is
the header value when it is present and non-empty, and the octet-stream
default when the header is absent OR empty. -/
theorem download_success_returns_drained_body (oracle : Nat → AttemptOutcome)
    (maxRetries : Int) (path : String) (fuel attempt : Nat) (lastError : Option String)
    (status : Nat) (contentType : Option String) (bodyText : String)
    (chunks : List (List Nat))
    (houtcome : oracle attempt = .response status contentType bodyText chunks)
    (h200 : 200 ≤ status) (h300 : status < 300) :
    ∃ res, (attemptLoopF oracle maxRetries path (fuel + 1) attempt lastError).2 = .ok res ∧
      res.data = chunks.flatten ∧
      res.data.length = (chunks.map List.length).sum ∧
      ((contentType = none ∨ contentType = some "") →
        res.contentType = "application/octet-stream") ∧
      (∀ ct, contentType = some ct → ct ≠ "" → res.contentType = ct) := by
  cases contentType with
  | none =>
    have hproc : processOutcome (oracle attempt) =
        .ok { data := chunks.flatten, contentType := "application/octet-stream" } := by
      simp only [houtcome, processOutcome]
      rw [if_neg (by omega)]
    refine ⟨{ data := chunks.flatten, contentType := "application/octet-stream" },
      by simp [attemptLoopF, hproc], rfl, List.length_flatten chunks,
      fun _ => rfl, ?_⟩
    rintro ct hct
    cases hct
  | some ct0 =>
    by_cases hct0 : ct0 = ""
    · subst hct0
      have hproc : processOutcome (oracle attempt) =
          .ok { data := chunks.flatten, contentType := "application/octet-stream" } := by
        simp only [houtcome, processOutcome]
        rw [if_neg (by omega)]
        rfl
      refine ⟨{ data := chunks.flatten, contentType := "application/octet-stream" },
        by simp [attemptLoopF, hproc], rfl, List.length_flatten chunks,
        fun _ => rfl, ?_⟩
      rintro ct hct hne
      injection hct with h
      exact absurd h.symm hne
    · have hproc : processOutcome (oracle attempt) =
          .ok { data := chunks.flatten, contentType := ct0 } := by
        simp only [houtcome, processOutcome]
        rw [if_neg (by omega)]
        simp [hct0]
      refine ⟨{ data := chunks.flatten, contentType := ct0 },
        by simp [attemptLoopF, hproc], rfl, List.length_flatten chunks, ?_, ?_⟩
      · rintro (h | h)
        · cases h
        · injection h with h'
          exact absurd h' hct0
      · rintro ct hct hne
        cases hct
        rfl

/-- C4 amended, witness: a 204 response with a real content type comes
back verbatim with the drained two-chunk body. -/
theorem download_success_returns_drained_body_witness :
    ∃ res,
      (attemptLoopF (fun _ => AttemptOutcome.response 204 (some "text/plain") "" [[1], [2, 3]])
          3 "/p" (0 + 1) 0 none).2 = .ok res ∧
      res.data = [[1], [2, 3]].flatten ∧
      res.data.length = ([[1], [2, 3]].map List.length).sum ∧
      (((some "text/plain" : Option String) = none ∨
          (some "text/plain" : Option String) = some "") →
        res.contentType = "application/octet-stream") ∧
      (∀ ct, (some "text/plain" : Option String) = some ct → ct ≠ "" →
        res.contentType = ct) :=
  download_success_returns_drained_body _ 3 "/p" 0 0 none 204 (some "text/plain") "" _
    rfl (by decide) (by decide)

/-- C5 counterexample: every attempt fails with the retryable status 400,
but the body text contains the substring Not a valid MXC URI, so the
source's message-based class test fires: only one of the two allowed
attempts is made and the surfaced error is the raw HTTP error, not the
retries-exhausted wrapper. -/
theorem download_http_magic_body_stops_loop :
    ((downloadContent_v2
        { mxcUrl := some "mxc://a/b", homeserverUrl := "https://h.x",
          accessToken := "tok", allowRemote := true, timeoutMs := 30000, maxRetries := 2 }
        ProbeOutcome.networkError
        (fun _ => AttemptOutcome.response 400 none "Not a valid MXC URI" [])).2 =
      .error "HTTP 400: Not a valid MXC URI") ∧
    countRequests ((downloadContent_v2
        { mxcUrl := some "mxc://a/b", homeserverUrl := "https://h.x",
          accessToken := "tok", allowRemote := true, timeoutMs := 30000, maxRetries := 2 }
        ProbeOutcome.networkError
        (fun _ => AttemptOutcome.response 400 none "Not a valid MXC URI" [])).1) = 1 ∧
    (1 : Nat) ≠ 2 ∧
    "HTTP 400: Not a valid MXC URI" ≠
      "Failed to download after 2 attempts: HTTP 400: Not a valid MXC URI" := by
  refine ⟨by decide, by decide, by decide, by decide⟩

theorem countRequests_append (a b : List Event) :
    countRequests (a ++ b) = countRequests a + countRequests b := by
  simp [countRequests, List.filter_append]

theorem countRequests_sleepPre (attempt : Nat) :
    countRequests (if 0 < attempt then [Event.sleep (backoffDelay attempt)] else []) = 0 := by
  by_cases h : 0 < attempt <;> simp [h, countRequests]

/-- One-step unfolding of the loop for positive fuel, with the recursive
call left folded (the inner fuel is symbolic, so rewriting with this
equation unfolds exactly one iteration). -/
theorem attemptLoopF_succ (oracle : Nat → AttemptOutcome) (maxRetries : Int)
    (path : String) (fuel attempt : Nat) (lastError : Option String) :
    attemptLoopF oracle maxRetries path (fuel + 1) attempt lastError =
      (match processOutcome (oracle attempt) with
       | .ok res =>
         ((if 0 < attempt then [Event.sleep (backoffDelay attempt)] else []) ++
            [Event.request path], .ok res)
       | .error msg =>
         if strIncludes msg "Not a valid MXC URI" then
           ((if 0 < attempt then [Event.sleep (backoffDelay attempt)] else []) ++
              [Event.request path], .error msg)
         else if fuel = 0 then
           ((if 0 < attempt then [Event.sleep (backoffDelay attempt)] else []) ++
              [Event.request path],
            .error ("Failed to download after " ++ toString maxRetries ++ " attempts: " ++ msg))
         else
           ((if 0 < attempt then [Event.sleep (backoffDelay attempt)] else []) ++
              Event.request path ::
                (attemptLoopF oracle maxRetries path fuel (attempt + 1) (some msg)).1,
            (attemptLoopF oracle maxRetries path fuel (attempt + 1) (some msg)).2)) := by
  simp only [attemptLoopF]

/-- In a loop state with fuel iterations left, if every remaining attempt
is answered with an error whose message does not contain the magic
substring, then exactly fuel requests are issued and the loop ends in the
exhausted-retries wrapper around the message of the last attempt. -/
theorem attemptLoopF_all_fail (oracle : Nat → AttemptOutcome) (maxRetries : Int)
    (path : String) (msgs : Nat → String) :
    ∀ fuel attempt lastError, 1 ≤ fuel →
    (∀ i, attempt ≤ i → i < attempt + fuel →
      processOutcome (oracle i) = .error (msgs i) ∧
      strIncludes (msgs i) "Not a valid MXC URI" = false) →
    countRequests (attemptLoopF oracle maxRetries path fuel attempt lastError).1 = fuel ∧
    (attemptLoopF oracle maxRetries path fuel attempt lastError).2 =
      .error ("Failed to download after " ++ toString maxRetries ++ " attempts: " ++
        msgs (attempt + fuel - 1)) := by
  intro fuel
  induction fuel with
  | zero => intro attempt lastError h1; omega
  | succ f ih =>
    intro attempt lastError _ hall
    obtain ⟨herr, hmagic⟩ := hall attempt (Nat.le_refl _) (by omega)
    rw [attemptLoopF_succ]
    simp only [herr, hmagic, Bool.false_eq_true, if_false]
    cases f with
    | zero =>
      rw [if_pos rfl]
      constructor
      · rw [countRequests_append, countRequests_sleepPre]
        rfl
      · have h1 : attempt + (0 + 1) - 1 = attempt := by omega
        rw [h1]
    | succ f' =>
      rw [if_neg (Nat.succ_ne_zero f')]
      have hrec := ih (attempt + 1) (some (msgs attempt)) (by omega)
        (fun i hi1 hi2 => hall i (by omega) (by omega))
      constructor
      · rw [show (Event.request path :: (attemptLoopF oracle maxRetries path (f' + 1)
              (attempt + 1) (some (msgs attempt))).1) =
            [Event.request path] ++ (attemptLoopF oracle maxRetries path (f' + 1)
              (attempt + 1) (some (msgs attempt))).1 from rfl]
        rw [countRequests_append, countRequests_append, countRequests_sleepPre, hrec.1]
        have h1 : countRequests [Event.request path] = 1 := rfl
        omega
      · have h1 : attempt + 1 + (f' + 1) - 1 = attempt + (f' + 1 + 1) - 1 := by omega
        rw [h1] at hrec
        exact hrec.2

/-- C5 amended: if every attempt of a download with maxRetries = n >= 1
fails with a retryable error (non-2xx status or transport error) whose
message does not contain the substring Not a valid MXC URI, then exactly
n attempts are made and the call surfaces the exhausted-retries wrapper
around the last underlying message and the attempt count.  (Without the
substring proviso the claim is false: see the counterexample, where a
400 body containing that substring stops the loop after one attempt.) -/
theorem download_all_retryable_failures_exhaust (args : DownloadArgs)
    (probe : ProbeOutcome) (oracle : Nat → AttemptOutcome) (comps : MXCComponents)
    (msgs : Nat → String)
    (hparse : parseMXCUrl args.mxcUrl = .ok comps)
    (hmr : 1 ≤ args.maxRetries)
    (hfail : ∀ i : Nat, (i : Int) < args.maxRetries →
      processOutcome (oracle i) = .error (msgs i) ∧
      strIncludes (msgs i) "Not a valid MXC URI" = false) :
    countRequests (downloadContent_v2 args probe oracle).1 = args.maxRetries.toNat ∧
    (downloadContent_v2 args probe oracle).2 =
      .error ("Failed to download after " ++ toString args.maxRetries ++ " attempts: " ++
        msgs (args.maxRetries.toNat - 1)) := by
  have hloop := attemptLoopF_all_fail oracle args.maxRetries
    ( getMediaEndpointPrefix probe ++ "/download/" ++ encodeURIComponent comps.domain ++
      "/" ++ encodeURIComponent comps.mediaId ++
      (if args.allowRemote then "" else "?allow_remote=false"))
    msgs args.maxRetries.toNat 0 none (by omega)
    (fun i hi1 hi2 => hfail i (by omega))
  simp only [Nat.zero_add] at hloop
  constructor
  · simp only [downloadContent_v2, hparse]
    exact hloop.1
  · simp only [downloadContent_v2, hparse]
    exact hloop.2

/-- C5 amended, witness: two transport failures exhaust maxRetries = 2
with two attempts and the wrapper message. -/
theorem download_all_retryable_failures_exhaust_witness :
    countRequests ((downloadContent_v2
        { mxcUrl := some "mxc://a/b", homeserverUrl := "https://h.x",
          accessToken := "tok", allowRemote := true, timeoutMs := 30000, maxRetries := 2 }
        ProbeOutcome.networkError (fun _ => AttemptOutcome.transportError "boom")).1) = 2 ∧
    ((downloadContent_v2
        { mxcUrl := some "mxc://a/b", homeserverUrl := "https://h.x",
          accessToken := "tok", allowRemote := true, timeoutMs := 30000, maxRetries := 2 }
        ProbeOutcome.networkError (fun _ => AttemptOutcome.transportError "boom")).2 =
      .error "Failed to download after 2 attempts: boom") :=
  download_all_retryable_failures_exhaust _ _ _ ⟨"a", "b"⟩ (fun _ => "boom")
    (by decide) (by decide) (fun i _ => ⟨rfl, rfl⟩)

/-- The events of attempt number i as the specification describes them:
no sleep before the first attempt (i = 0), and before every later attempt
exactly one sleep of min(1000 * 2^(i-1), 8000) milliseconds, followed by
the HTTP request. -/
def attemptEvents (path : String) (i : Nat) : List Event :=
  (if 0 < i then [Event.sleep (min (1000 * 2 ^ (i - 1)) 8000)] else []) ++
    [Event.request path]

theorem attemptLoopF_trace (oracle : Nat → AttemptOutcome) (maxRetries : Int)
    (path : String) :
    ∀ fuel attempt lastError, ∃ k,
      (attemptLoopF oracle maxRetries path fuel attempt lastError).1 =
        ((List.range' attempt k).map (attemptEvents path)).flatten := by
  intro fuel
  induction fuel with
  | zero =>
    intro attempt lastError
    exact ⟨0, rfl⟩
  | succ f ih =>
    intro attempt lastError
    rw [attemptLoopF_succ]
    cases hout : processOutcome (oracle attempt) with
    | ok res =>
      refine ⟨1, ?_⟩
      simp [attemptEvents, backoffDelay, List.range']
    | error msg =>
      dsimp only
      by_cases hmag : strIncludes msg "Not a valid MXC URI" = true
      · refine ⟨1, ?_⟩
        rw [if_pos hmag]
        simp [attemptEvents, backoffDelay, List.range']
      · rw [if_neg hmag]
        by_cases hf : f = 0
        · refine ⟨1, ?_⟩
          rw [if_pos hf]
          simp [attemptEvents, backoffDelay, List.range']
        · rw [if_neg hf]
          obtain ⟨k, hk⟩ := ih (attempt + 1) (some msg)
          refine ⟨k + 1, ?_⟩
          rw [List.range'_succ, List.map_cons, List.flatten_cons, ← hk]
          simp [attemptEvents, backoffDelay, List.append_assoc]

theorem attemptLoop_trace (oracle : Nat → AttemptOutcome) (maxRetries : Int)
    (path : String) :
    ∃ k, (attemptLoop oracle maxRetries path).1 =
      ((List.range k).map (attemptEvents path)).flatten := by
  obtain ⟨k, hk⟩ := attemptLoopF_trace oracle maxRetries path maxRetries.toNat 0 none
  exact ⟨k, by rw [attemptLoop, hk, List.range_eq_range' k]⟩

/-- C6: on any download whose identifier parses, the trace is the probe,
the pool acquisition, and then attempt blocks in order: attempt 0 with no
preceding sleep, and every attempt i > 0 preceded by exactly one sleep of
min(1000 * 2^(i-1), 8000) milliseconds. -/
theorem download_backoff_trace (args : DownloadArgs) (probe : ProbeOutcome)
    (oracle : Nat → AttemptOutcome) (comps : MXCComponents)
    (hparse : parseMXCUrl args.mxcUrl = .ok comps) :
    ∃ path k, (downloadContent_v2 args probe oracle).1 =
      Event.probe :: Event.acquire ::
        ((List.range k).map (attemptEvents path)).flatten := by
  obtain ⟨k, hk⟩ := attemptLoop_trace oracle args.maxRetries
    ( getMediaEndpointPrefix probe ++ "/download/" ++ encodeURIComponent comps.domain ++
      "/" ++ encodeURIComponent comps.mediaId ++
      (if args.allowRemote then "" else "?allow_remote=false"))
  refine ⟨ getMediaEndpointPrefix probe ++ "/download/" ++ encodeURIComponent comps.domain ++
      "/" ++ encodeURIComponent comps.mediaId ++
      (if args.allowRemote then "" else "?allow_remote=false"), k, ?_⟩
  simp only [downloadContent_v2, hparse]
  rw [hk]

/-- C6 witness: a concrete download with three failing attempts has the
probe-acquire-attempts trace shape. -/
theorem download_backoff_trace_witness :
    ∃ path k,
      (downloadContent_v2
          { mxcUrl := some "mxc://a/b", homeserverUrl := "https://h.x",
            accessToken := "tok", allowRemote := true, timeoutMs := 30000, maxRetries := 3 }
          ProbeOutcome.networkError (fun _ => AttemptOutcome.transportError "boom")).1 =
        Event.probe :: Event.acquire ::
          ((List.range k).map (attemptEvents path)).flatten :=
  download_backoff_trace _ _ _ ⟨"a", "b"⟩ (by decide)

end OpenclawMedia
